import Mathlib

/-!
Verification of the `proyectoA_pyomo` vehicle-routing pipeline against its
natural-language specification.

The development shallowly embeds the parts of the Python source that the
claims are about:

* `verificators/build_verification_case.py` (`build_verificacion`): the
  per-vehicle successor-map walk, depot selection and verification-row totals;
* `verificators/build_verification_case2.py` (`build_verification_case2`):
  the start-depot selection with predecessor preference;
* `pipelines/preprocess.py`: `haversine_km` and the arc-cost precomputation
  of `build_inputs_from_base`, `build_inputs_from_caso2`,
  `build_inputs_from_caso3`;
* `model/solve.py`: the termination-condition classification of `try_milp`
  and the flow-export threshold of `export_solution`;
* `model/build_model.py`: the `cost_init`/`time_init`/`dist_init` parameter
  initializers with their sentinel defaults.

Numeric values are modelled as exact rationals (`ℚ`); the transcendental
primitives used by the haversine formula (sin, cos, sqrt, atan2, π) are
abstracted as an explicit parameter structure, so every definition stays
executable and decidable on concrete inputs.
-/

namespace ProyectoA

/-! ## Association-list machinery (Python `dict` semantics)

Python dicts preserve first-insertion order of keys and overwrite the value
on repeated assignment.  `dictInsert` mirrors one `d[k] = v` assignment and
`alookup` mirrors `d[k]` / `k in d`. -/

/-- Lookup in an association list: value of the first pair whose key is `k`
(`d[k]` on a Python dict, where keys are unique). -/
def alookup {α β : Type} [DecidableEq α] (k : α) : List (α × β) → Option β
  | [] => none
  | (a, b) :: rest => if a = k then some b else alookup k rest

/-- One Python dict assignment `d[k] = v`: overwrite in place if the key is
present, append otherwise (preserving insertion order of keys). -/
def dictInsert {α β : Type} [DecidableEq α] (m : List (α × β)) (k : α) (v : β) :
    List (α × β) :=
  if k ∈ m.map Prod.fst then
    m.map (fun p => if p.1 = k then (k, v) else p)
  else
    m ++ [(k, v)]

/-- Build a dict from a list of assignments performed in order. -/
def dictOfList {α β : Type} [DecidableEq α] (l : List (α × β)) : List (α × β) :=
  l.foldl (fun m p => dictInsert m p.1 p.2) []

/-! ## The successor-map walk (`build_verificacion`, lines 57–73)

Python source:
```
seq = [depot]; visited = set([depot]); current = depot
while True:
    if current not in next_map: break
    nxt = next_map[current]
    seq.append(nxt)
    if nxt == depot: break
    if nxt in visited: break
    visited.add(nxt)
    current = nxt
```
The loop is embedded with an explicit fuel argument; termination of the
Python loop is the theorem that the result stabilizes once the fuel exceeds
an explicit bound computed from the successor map. -/

/-- One fuelled run of the reconstruction loop of `build_verificacion`.
`fuel` bounds the number of iterations still allowed; each iteration mirrors
the Python loop body exactly (lookup, append, depot check, revisit check). -/
def walkAux (nextMap : List (String × String)) (depot : String) :
    Nat → String → List String → List String → List String
  | 0, _, _, seq => seq
  | fuel + 1, current, visited, seq =>
    match alookup current nextMap with
    | none => seq
    | some nxt =>
      if nxt = depot then seq ++ [nxt]
      else if nxt ∈ visited then seq ++ [nxt]
      else walkAux nextMap depot fuel nxt (nxt :: visited) (seq ++ [nxt])

/-- Iteration bound for the walk: twice the number of map keys not yet
visited, plus two.  Every loop iteration either exits or (within two steps)
strictly shrinks the set of unvisited keys. -/
def walkBound (nextMap : List (String × String)) (visited : List String) : Nat :=
  2 * ((nextMap.map Prod.fst).filter (fun k => ¬ k ∈ visited)).length + 2

/-- The route-reconstruction walk from the depot, run with sufficient fuel. -/
def walk (nextMap : List (String × String)) (depot : String) : List String :=
  walkAux nextMap depot (walkBound nextMap [depot]) depot [depot] [depot]

example : walk [("D", "A"), ("A", "B"), ("B", "C"), ("C", "A")] "D"
    = ["D", "A", "B", "C", "A"] := by decide

example : walk [("A", "B"), ("B", "C"), ("C", "A")] "D" = ["D"] := by decide

example : walk [("D", "A"), ("A", "D")] "D" = ["D", "A", "D"] := by decide

/-! ## Termination of the walk -/

/-- A successful lookup means the key occurs among the list's keys. -/
lemma alookup_some_mem {α β : Type} [DecidableEq α] {k : α} {v : β} :
    ∀ {l : List (α × β)}, alookup k l = some v → k ∈ l.map Prod.fst := by
  intro l
  induction l with
  | nil => intro h; cases h
  | cons p rest ih =>
    intro h
    rw [alookup] at h
    by_cases hp : p.1 = k
    · exact List.mem_map.mpr ⟨p, List.mem_cons_self .., hp⟩
    · rw [if_neg hp] at h
      exact List.mem_cons_of_mem _ (ih h)

/-- Filtering with a strictly smaller predicate (witnessed at an element of
the list) yields a strictly shorter list. -/
lemma length_filter_lt_of_witness {α : Type} (l : List α) (p q : α → Bool)
    (hqp : ∀ x, q x = true → p x = true) (k : α) (hk : k ∈ l)
    (hpk : p k = true) (hqk : q k = false) :
    (l.filter q).length < (l.filter p).length := by
  induction l with
  | nil => cases hk
  | cons a rest ih =>
    rcases List.mem_cons.mp hk with rfl | hk'
    · rw [List.filter_cons_of_pos hpk, List.filter_cons_of_neg (by simp [hqk])]
      exact Nat.lt_succ_of_le (List.monotone_filter_right rest hqp).length_le
    · by_cases hqa : q a = true
      · rw [List.filter_cons_of_pos (hqp a hqa), List.filter_cons_of_pos hqa]
        simpa using ih hk'
      · rw [List.filter_cons_of_neg (by simpa using hqa)]
        by_cases hpa : p a = true
        · rw [List.filter_cons_of_pos hpa]
          exact Nat.lt_succ_of_lt (ih hk')
        · rw [List.filter_cons_of_neg (by simpa using hpa)]
          exact ih hk'

/-- Marking an unvisited key as visited shrinks the walk bound by at least 2. -/
lemma walkBound_cons_le {nextMap : List (String × String)} {nxt : String}
    {visited : List String} (hkey : nxt ∈ nextMap.map Prod.fst)
    (hvis : nxt ∉ visited) :
    walkBound nextMap (nxt :: visited) + 2 ≤ walkBound nextMap visited := by
  unfold walkBound
  have hlt := length_filter_lt_of_witness (nextMap.map Prod.fst)
    (fun k => decide (¬ k ∈ visited)) (fun k => decide (¬ k ∈ nxt :: visited))
    (fun x => by simp) nxt hkey (by simp [hvis]) (by simp)
  omega

/-- The walk bound is always at least 2. -/
lemma two_le_walkBound (nextMap : List (String × String)) (visited : List String) :
    2 ≤ walkBound nextMap visited := by
  unfold walkBound; omega

/-- The fuelled walk stabilizes: any fuel at least `walkBound` produces the
same sequence as fuel exactly `walkBound`.  This is the termination argument
for the `while True` loop of `build_verificacion`. -/
lemma walkAux_stable (nextMap : List (String × String)) (depot : String) :
    ∀ (fuel : Nat) (cur : String) (visited seq : List String),
      walkBound nextMap visited ≤ fuel →
      walkAux nextMap depot fuel cur visited seq
        = walkAux nextMap depot (walkBound nextMap visited) cur visited seq := by
  intro fuel
  induction fuel using Nat.strong_induction_on with
  | _ fuel IH =>
    intro cur visited seq h
    have hb2 : 2 ≤ walkBound nextMap visited := two_le_walkBound nextMap visited
    obtain ⟨f, rfl⟩ : ∃ f, fuel = f + 1 := ⟨fuel - 1, by omega⟩
    obtain ⟨b, hb⟩ : ∃ b, walkBound nextMap visited = b + 1 :=
      ⟨walkBound nextMap visited - 1, by omega⟩
    rw [hb]
    cases hcur : alookup cur nextMap with
    | none => simp only [walkAux, hcur]
    | some nxt =>
      by_cases hdep : nxt = depot
      · simp only [walkAux, hcur, if_pos hdep]
      · by_cases hvis : nxt ∈ visited
        · simp only [walkAux, hcur, if_neg hdep, if_pos hvis]
        · simp only [walkAux, hcur, if_neg hdep, if_neg hvis]
          cases hnxt : alookup nxt nextMap with
          | none =>
            obtain ⟨f', rfl⟩ : ∃ f', f = f' + 1 := ⟨f - 1, by omega⟩
            obtain ⟨b', rfl⟩ : ∃ b', b = b' + 1 := ⟨b - 1, by omega⟩
            simp only [walkAux, hnxt]
          | some nxt2 =>
            have hkey : nxt ∈ nextMap.map Prod.fst := alookup_some_mem hnxt
            have hdec := walkBound_cons_le hkey hvis
            rw [IH f (by omega) nxt (nxt :: visited) (seq ++ [nxt]) (by omega),
              IH b (by omega) nxt (nxt :: visited) (seq ++ [nxt]) (by omega)]

/-- C1.  The route-reconstruction walk terminates for every input
successor map: running the loop of `build_verificacion` with any iteration
allowance of at least `walkBound` (an explicit bound computed from the map)
returns the same finite partial sequence as `walk`; in particular malformed
maps (e.g. a 3-node cycle not containing the depot) cannot make the loop run
longer than the bound, and the partial sequence built so far is returned. -/
theorem walk_terminates_for_every_map (nextMap : List (String × String))
    (depot : String) (fuel : Nat) (h : walkBound nextMap [depot] ≤ fuel) :
    walkAux nextMap depot fuel depot [depot] [depot] = walk nextMap depot :=
  walkAux_stable nextMap depot fuel depot [depot] [depot] h

/-- Witness for C1: a successor map containing the artificial 3-node cycle
`A → B → C → A` not including the depot `D`; the walk run with a huge fuel
equals the bounded walk (which computes to the partial sequence
`D-A-B-C-A`). -/
theorem walk_terminates_for_every_map_witness :
    walkBound [("D", "A"), ("A", "B"), ("B", "C"), ("C", "A")] ["D"] ≤ 1000 ∧
      walkAux [("D", "A"), ("A", "B"), ("B", "C"), ("C", "A")] "D" 1000 "D"
        ["D"] ["D"]
        = walk [("D", "A"), ("A", "B"), ("B", "C"), ("C", "A")] "D" :=
  ⟨by decide,
    walk_terminates_for_every_map [("D", "A"), ("A", "B"), ("B", "C"), ("C", "A")]
      "D" 1000 (by decide)⟩

/-! ## Structural invariant of the walk -/

/-- The head of an append is `head?` of a nonempty left part. -/
lemma head?_append_of_ne_nil {α : Type} {l : List α} (t : List α) (h : l ≠ []) :
    (l ++ t).head? = l.head? := by
  cases l with
  | nil => exact absurd rfl h
  | cons a l => rfl

/-- Invariant carried by every iteration of the reconstruction loop: the
sequence is nonempty, ends at the current node, is duplicate-free, is
contained in the visited set, and is a chain of successor-map entries.  The
loop's result then keeps the head, remains a chain, and is duplicate-free
except possibly at its final element. -/
lemma walkAux_invariant (nextMap : List (String × String)) (depot : String) :
    ∀ (fuel : Nat) (cur : String) (visited seq : List String),
      seq ≠ [] → seq.getLast? = some cur → seq.Nodup →
      (∀ x ∈ seq, x ∈ visited) →
      List.Chain' (fun a b => alookup a nextMap = some b) seq →
      (walkAux nextMap depot fuel cur visited seq).head? = seq.head? ∧
        List.Chain' (fun a b => alookup a nextMap = some b)
          (walkAux nextMap depot fuel cur visited seq) ∧
        (walkAux nextMap depot fuel cur visited seq).dropLast.Nodup := by
  intro fuel
  induction fuel with
  | zero =>
    intro cur visited seq hne hlast hnodup hsub hchain
    exact ⟨rfl, hchain, List.Nodup.sublist (List.dropLast_sublist seq) hnodup⟩
  | succ f ih =>
    intro cur visited seq hne hlast hnodup hsub hchain
    cases hcur : alookup cur nextMap with
    | none =>
      simp only [walkAux, hcur]
      exact ⟨by trivial, hchain, List.Nodup.sublist (List.dropLast_sublist seq) hnodup⟩
    | some nxt =>
      have hchain' : List.Chain' (fun a b => alookup a nextMap = some b)
          (seq ++ [nxt]) := by
        rw [List.chain'_append]
        refine ⟨hchain, List.chain'_singleton nxt, ?_⟩
        intro x hx y hy
        rw [hlast] at hx
        simp only [Option.mem_def, Option.some.injEq, List.head?_cons] at hx hy
        rw [← hx, ← hy]
        exact hcur
      have hhead : (seq ++ [nxt]).head? = seq.head? :=
        head?_append_of_ne_nil [nxt] hne
      have hdl : (seq ++ [nxt]).dropLast = seq := List.dropLast_concat
      by_cases hdep : nxt = depot
      · simp only [walkAux, hcur, if_pos hdep]
        exact ⟨hhead, hchain', by rw [hdl]; exact hnodup⟩
      · by_cases hvis : nxt ∈ visited
        · simp only [walkAux, hcur, if_neg hdep, if_pos hvis]
          exact ⟨hhead, hchain', by rw [hdl]; exact hnodup⟩
        · simp only [walkAux, hcur, if_neg hdep, if_neg hvis]
          have hnmem : nxt ∉ seq := fun hmem => hvis (hsub nxt hmem)
          have hnodup' : (seq ++ [nxt]).Nodup :=
            List.Nodup.append hnodup (List.nodup_singleton nxt)
              (List.disjoint_singleton.mpr hnmem)
          have hsub' : ∀ x ∈ seq ++ [nxt], x ∈ nxt :: visited := by
            intro x hx
            rcases List.mem_append.mp hx with hx' | hx'
            · exact List.mem_cons_of_mem _ (hsub x hx')
            · simp only [List.mem_singleton] at hx'
              exact hx' ▸ List.mem_cons_self ..
          have hlast' : (seq ++ [nxt]).getLast? = some nxt :=
            List.getLast?_concat seq
          obtain ⟨h1, h2, h3⟩ := ih nxt (nxt :: visited) (seq ++ [nxt])
            (by simp) hlast' hnodup' hsub' hchain'
          exact ⟨h1.trans hhead, h2, h3⟩

/-! ## The verification-row builder (`build_verificacion`, lines 36–111)

A row of `selected_arcs_detailed.csv` carries the vehicle, the arc endpoints
(`from`/`to` columns, named `src`/`dst` here since `from` is a Lean keyword)
and the precomputed per-arc `dist_km`/`time_h`/`cost` fields. -/

structure SelArc where
  vehicle : String
  src : String
  dst : String
  dist_km : ℚ
  time_h : ℚ
  cost : ℚ
deriving DecidableEq

/-- Embedding of `sel[sel["vehicle"] == veh_id]`: the rows of the selected-arcs table that
belong to one vehicle, in table order. -/
def arcsOf (sel : List SelArc) (veh : String) : List SelArc :=
  sel.filter (fun a => a.vehicle = veh)

/-- The successor map `i -> j` built from a vehicle's arcs
(`next_map[i] = j` row by row, Python dict semantics). -/
def buildNextMap (arcs : List SelArc) : List (String × String) :=
  dictOfList (arcs.map (fun a => (a.src, a.dst)))

/-- Depot selection of `build_verificacion` (lines 50–55): the first key of
the successor map that is a center; otherwise the first center of the global
center table. -/
def chooseDepot1 (nextMap : List (String × String)) (centerIds : List String)
    (globalCenters : List String) : String :=
  match ((nextMap.map Prod.fst).filter (fun n => n ∈ centerIds)).head? with
  | some d => d
  | none => globalCenters.headD ""

/-- One output row of `verificacion_caso1.csv`. -/
structure VerifRow where
  vehicleId : String
  depotId : String
  initialLoad : ℚ
  routeSeq : List String
  clientsServed : Nat
  demands : List ℚ
  totalDistance : ℚ
  totalTime : ℚ
  fuelCost : ℚ
deriving DecidableEq

/-- The per-vehicle body of `build_verificacion` (lines 38–111): reconstruct
the route, list the served clients and demands, and aggregate the vehicle's
distance/time/cost by summing the arc table's fields (time converted to
minutes). -/
def build_verif_row (sel : List SelArc) (centerIds globalCenters : List String)
    (demandMap : List (String × ℚ)) (veh : String) : VerifRow :=
  let arcs_v := arcsOf sel veh
  let nextMap := buildNextMap arcs_v
  let depot := chooseDepot1 nextMap centerIds globalCenters
  let seq := walk nextMap depot
  let clientIds := seq.filter (fun n => n ∈ demandMap.map Prod.fst)
  let demands := clientIds.map (fun c => (alookup c demandMap).getD 0)
  { vehicleId := veh
    depotId := depot
    initialLoad := demands.sum
    routeSeq := seq
    clientsServed := clientIds.length
    demands := demands
    totalDistance := (arcs_v.map SelArc.dist_km).sum
    totalTime := (arcs_v.map SelArc.time_h).sum * 60
    fuelCost := (arcs_v.map SelArc.cost).sum }

/-! ## Start-depot selection of `build_verification_case2` (lines 105–128)

The case-2 reconstructor additionally builds a predecessor map and prefers a
center with an outgoing arc and no incoming arc; with no center among the
successor-map keys it returns no start at all (the vehicle is skipped). -/

/-- Successor and predecessor maps of one vehicle's arcs (lines 106–112). -/
def buildSuccPred (arcs : List SelArc) :
    List (String × String) × List (String × String) :=
  (dictOfList (arcs.map (fun a => (a.src, a.dst))),
    dictOfList (arcs.map (fun a => (a.dst, a.src))))

/-- Start-depot selection of `build_verification_case2` (lines 114–128):
among centers with an outgoing arc, the first one with no recorded
predecessor; otherwise the first center with an outgoing arc; `none` (vehicle
skipped) when no successor-map key is a center. -/
def chooseStart2 (succ pred : List (String × String)) (centerIds : List String) :
    Option String :=
  let centersWithOut := (succ.map Prod.fst).filter (fun n => n ∈ centerIds)
  match centersWithOut.find? (fun c => ¬ c ∈ pred.map Prod.fst) with
  | some c => some c
  | none => centersWithOut.head?

/-- The depot-selection rule exactly as the specification words it (spec
§4.3): prefer a center key with no incoming arc, then the first center key,
then — "fall back further to the first center in the global node set if no
candidate is found". -/
def specDepotRule (succ pred : List (String × String))
    (centerIds globalCenters : List String) : Option String :=
  let centersWithOut := (succ.map Prod.fst).filter (fun n => n ∈ centerIds)
  match centersWithOut.find? (fun c => ¬ c ∈ pred.map Prod.fst) with
  | some c => some c
  | none =>
    match centersWithOut.head? with
    | some c => some c
    | none => globalCenters.head?

/-! ## Claims C10, C3, C5 -/

/-- The walk from a depot keeps the depot as head, follows successor-map
entries, and is duplicate-free except possibly at its final element. -/
lemma walk_invariant (nextMap : List (String × String)) (depot : String) :
    (walk nextMap depot).head? = some depot ∧
      List.Chain' (fun a b => alookup a nextMap = some b) (walk nextMap depot) ∧
      (walk nextMap depot).dropLast.Nodup := by
  obtain ⟨h1, h2, h3⟩ := walkAux_invariant nextMap depot
    (walkBound nextMap [depot]) depot [depot] [depot]
    (by simp) rfl (by simp) (by simp) (List.chain'_singleton depot)
  exact ⟨h1, h2, h3⟩

/-- C10.  Every reconstructed route sequence starts at the chosen depot,
every adjacent pair of its nodes is an entry of that vehicle's successor map,
and no node occurs twice except possibly the final element (which closes the
tour at the depot or flags a revisit). -/
theorem route_sequence_invariant (sel : List SelArc)
    (centerIds globalCenters : List String) (demandMap : List (String × ℚ))
    (veh : String) :
    (build_verif_row sel centerIds globalCenters demandMap veh).routeSeq.head?
        = some (chooseDepot1 (buildNextMap (arcsOf sel veh)) centerIds
            globalCenters) ∧
      List.Chain'
        (fun a b => alookup a (buildNextMap (arcsOf sel veh)) = some b)
        (build_verif_row sel centerIds globalCenters demandMap veh).routeSeq ∧
      (build_verif_row sel centerIds globalCenters demandMap
          veh).routeSeq.dropLast.Nodup := by
  obtain ⟨h1, h2, h3⟩ := walk_invariant (buildNextMap (arcsOf sel veh))
    (chooseDepot1 (buildNextMap (arcsOf sel veh)) centerIds globalCenters)
  exact ⟨h1, h2, h3⟩

/-- A one-arc selected-arcs table used to refute the literal reading of C3:
the arc has `time_h = 1` but the verification row reports `TotalTime = 60`
(minutes). -/
def exArcC3 : SelArc :=
  { vehicle := "V1", src := "C1", dst := "A", dist_km := 5, time_h := 1,
    cost := 7 }

/-- C3, counterexample.  The verification row's `TotalTime` is not the
sum of the `time_h` fields: on a single selected arc with `time_h = 1` the
row carries `60` (the code multiplies the sum of hours by 60). -/
theorem total_time_not_sum_counterexample :
    (build_verif_row [exArcC3] ["C1"] ["C1"] [("A", 3)] "V1").totalTime
      ≠ ((arcsOf [exArcC3] "V1").map SelArc.time_h).sum := by
  norm_num [build_verif_row, arcsOf, exArcC3]

/-- C3, amended.  For each vehicle, `TotalDistance` and `FuelCost` equal
the sums of the `dist_km` and `cost` fields over exactly that vehicle's rows
of the selected-arcs table, and `TotalTime` equals the sum of the `time_h`
fields converted to minutes (multiplied by 60); all three are independent of
the reconstructed node sequence — changing the center and demand inputs that
drive the depot choice and the walk leaves them unchanged, so a truncated
walk yields the same totals as a complete one. -/
theorem totals_are_arc_table_sums (sel : List SelArc)
    (centerIds globalCenters centerIds' globalCenters' : List String)
    (demandMap demandMap' : List (String × ℚ)) (veh : String) :
    (build_verif_row sel centerIds globalCenters demandMap veh).totalDistance
        = ((arcsOf sel veh).map SelArc.dist_km).sum ∧
      (build_verif_row sel centerIds globalCenters demandMap veh).totalTime
        = ((arcsOf sel veh).map SelArc.time_h).sum * 60 ∧
      (build_verif_row sel centerIds globalCenters demandMap veh).fuelCost
        = ((arcsOf sel veh).map SelArc.cost).sum ∧
      (build_verif_row sel centerIds globalCenters demandMap veh).totalDistance
        = (build_verif_row sel centerIds' globalCenters' demandMap'
            veh).totalDistance ∧
      (build_verif_row sel centerIds globalCenters demandMap veh).totalTime
        = (build_verif_row sel centerIds' globalCenters' demandMap'
            veh).totalTime ∧
      (build_verif_row sel centerIds globalCenters demandMap veh).fuelCost
        = (build_verif_row sel centerIds' globalCenters' demandMap'
            veh).fuelCost :=
  ⟨rfl, rfl, rfl, rfl, rfl, rfl⟩

/-- C5, counterexample.  The spec's merged depot rule disagrees with both
reconstructors: with successor map `{A → B}` and no center key, the spec rule
falls back to the global first center `C1` while the case-2 code chooses no
start at all (the vehicle is skipped); with center keys `C1` (which has an
incoming arc) and `C2` (which has none), the spec rule prefers `C2` while the
case-1 code takes the first key `C1`. -/
theorem depot_selection_counterexample :
    specDepotRule [("A", "B")] [("B", "A")] ["C1"] ["C1"] = some "C1" ∧
      chooseStart2 [("A", "B")] [("B", "A")] ["C1"] = none ∧
      specDepotRule [("C1", "A"), ("C2", "B"), ("A", "C1")]
          [("A", "C1"), ("B", "C2"), ("C1", "A")] ["C1", "C2"] ["C1", "C2"]
        = some "C2" ∧
      chooseDepot1 [("C1", "A"), ("C2", "B"), ("A", "C1")] ["C1", "C2"]
          ["C1", "C2"]
        = "C1" := by decide

/-- C5, amended.  Depot selection, per reconstructor.  Case 2
(`build_verification_case2`): the chosen start is a successor-map key that is
a center; when some center key has no incoming arc, the chosen start has no
incoming arc; and no start is chosen exactly when no successor-map key is a
center — the vehicle is then skipped, with no fallback to the global node
set.  Case 1 (`build_verificacion`): the first successor-map key that is a
center, with no preference about incoming arcs, falling back to the first
center of the global node set when no key is a center. -/
theorem depot_selection_per_reconstructor (succ pred : List (String × String))
    (centerIds : List String) (nextMap : List (String × String))
    (globalCenters : List String) :
    (chooseStart2 succ pred centerIds = none ↔
        (succ.map Prod.fst).filter (fun n => n ∈ centerIds) = []) ∧
      (∀ c, chooseStart2 succ pred centerIds = some c →
        c ∈ succ.map Prod.fst ∧ c ∈ centerIds) ∧
      (∀ c₀, c₀ ∈ (succ.map Prod.fst).filter (fun n => n ∈ centerIds) →
        ¬ c₀ ∈ pred.map Prod.fst →
        ∃ c, chooseStart2 succ pred centerIds = some c ∧
          ¬ c ∈ pred.map Prod.fst) ∧
      ((nextMap.map Prod.fst).filter (fun n => n ∈ centerIds) = [] →
        chooseDepot1 nextMap centerIds globalCenters
          = globalCenters.headD "") ∧
      (∀ d, ((nextMap.map Prod.fst).filter (fun n => n ∈ centerIds)).head?
          = some d →
        chooseDepot1 nextMap centerIds globalCenters = d) := by
  refine ⟨?_, ?_, ?_, ?_, ?_⟩
  · simp only [chooseStart2]
    cases hf : ((succ.map Prod.fst).filter (fun n => n ∈ centerIds)).find?
        (fun c => ¬ c ∈ pred.map Prod.fst) with
    | some c =>
      simp only [hf]
      constructor
      · intro h; cases h
      · intro h; rw [h] at hf; cases hf
    | none =>
      simp only [hf]
      exact List.head?_eq_none_iff
  · intro c hc
    simp only [chooseStart2] at hc
    have hmem : c ∈ (succ.map Prod.fst).filter (fun n => n ∈ centerIds) := by
      cases hf : ((succ.map Prod.fst).filter (fun n => n ∈ centerIds)).find?
          (fun c => ¬ c ∈ pred.map Prod.fst) with
      | some c' =>
        simp only [hf] at hc
        cases hc
        exact List.mem_of_find?_eq_some hf
      | none =>
        simp only [hf] at hc
        exact List.mem_of_mem_head? hc
    have := List.mem_filter.mp hmem
    exact ⟨this.1, by simpa using this.2⟩
  · intro c₀ hc₀ hp
    cases hf : ((succ.map Prod.fst).filter (fun n => n ∈ centerIds)).find?
        (fun c => ¬ c ∈ pred.map Prod.fst) with
    | some c =>
      refine ⟨c, ?_, ?_⟩
      · simp only [chooseStart2, hf]
      · simpa using List.find?_some hf
    | none =>
      exfalso
      have hno := List.find?_eq_none.mp hf c₀ hc₀
      simp only [decide_eq_true_eq, not_not] at hno
      exact hp hno
  · intro h
    simp only [chooseDepot1, h, List.head?_nil]
  · intro d hd
    simp only [chooseDepot1, hd]

/-- Witness for C5's amended theorem at concrete inputs: a successor map
whose only key is not a center makes case 2 skip the vehicle while case 1
falls back to the first global center. -/
theorem depot_selection_per_reconstructor_witness :
    chooseStart2 [("X", "Y")] [("Y", "X")] ["C2"] = none ∧
      chooseDepot1 [("X", "Y")] ["C2"] ["C9"] = "C9" :=
  ⟨(depot_selection_per_reconstructor [("X", "Y")] [("Y", "X")] ["C2"]
      [("X", "Y")] ["C9"]).1.mpr (by decide),
    (depot_selection_per_reconstructor [("X", "Y")] [("Y", "X")] ["C2"]
      [("X", "Y")] ["C9"]).2.2.2.1 (by decide)⟩

/-! ## Solver-outcome classification (`solve.py`, `try_milp`, lines 45–69)

Pyomo's solver status and termination condition are enumerated; the branch
structure of `try_milp` after `solver.solve` is embedded as a classification
returning `some tag` when a usable model is returned and `none` when the
caller receives no model. -/

inductive TerminationCondition where
  | optimal
  | feasible
  | maxTimeLimit
  | infeasible
  | unbounded
  | error
  | unknown
deriving DecidableEq

inductive SolverStatus where
  | ok
  | warning
  | error
  | aborted
deriving DecidableEq

open TerminationCondition SolverStatus in
/-- The outcome of `try_milp` (lines 53–66): `some "OK"` for
optimal/feasible, `some "TIME_LIMIT_FEASIBLE"` for a time limit with an
incumbent (status ok/aborted), `none` (no model) otherwise. -/
def try_milp_status (status : SolverStatus) (term : TerminationCondition) :
    Option String :=
  if term = optimal ∨ term = feasible then some "OK"
  else if term = maxTimeLimit ∧ (status = ok ∨ status = aborted) then
    some "TIME_LIMIT_FEASIBLE"
  else none

/-- The `__main__` block of `solve.py` (lines 163–169): `export_solution`
runs exactly when `try_milp` returned a model. -/
def main_exports (status : SolverStatus) (term : TerminationCondition) : Bool :=
  (try_milp_status status term).isSome

/-- C2.  A usable solved model is returned exactly when the termination
condition is optimal or feasible, or is max-time-limit with an incumbent
(solver status ok or aborted); the time-limit case is flagged with the
distinct tag `TIME_LIMIT_FEASIBLE`, the optimal/feasible case with `OK`, and
in every other case no model is returned and the solution export does not
run. -/
theorem solve_success_classification (st : SolverStatus)
    (tc : TerminationCondition) :
    ((try_milp_status st tc).isSome ↔
        tc = .optimal ∨ tc = .feasible ∨
          (tc = .maxTimeLimit ∧ (st = .ok ∨ st = .aborted))) ∧
      ((tc = .optimal ∨ tc = .feasible) → try_milp_status st tc = some "OK") ∧
      (tc = .maxTimeLimit → (st = .ok ∨ st = .aborted) →
        try_milp_status st tc = some "TIME_LIMIT_FEASIBLE") ∧
      (try_milp_status st tc = none → main_exports st tc = false) := by
  cases st <;> cases tc <;> decide

/-- Witness for C2: a time limit with an aborted-but-incumbent solver run is
classified as the degraded success `TIME_LIMIT_FEASIBLE`. -/
theorem solve_success_classification_witness :
    try_milp_status .aborted .maxTimeLimit = some "TIME_LIMIT_FEASIBLE" :=
  (solve_success_classification .aborted .maxTimeLimit).2.2.1 rfl (Or.inr rfl)

/-! ## Flow export (`solve.py`, `export_solution`, lines 103–111) -/

/-- One row of `flows_by_arc_per_vehicle.csv`. -/
structure FlowRow where
  vehicle : String
  src : String
  dst : String
  flow : ℚ
deriving DecidableEq

/-- The flow-export loop: for every vehicle `k` and arc `(i, j)`, read the
solved value of `y[k,i,j]` (`None` counted as `0.0`) and keep the row exactly
when it exceeds `1e-6`. -/
def export_flows (K : List String) (A : List (String × String))
    (y : String → String × String → Option ℚ) : List FlowRow :=
  K.flatMap fun k => A.filterMap fun a =>
    if 1/1000000 < (y k a).getD 0 then
      some { vehicle := k, src := a.1, dst := a.2, flow := (y k a).getD 0 }
    else none

/-- C7.  A (vehicle, origin, destination) row appears in the exported
flow table iff the solved flow value of that variable exceeds `1e-6`, with an
absent (`None`) value counted as `0` and therefore excluded; the row carries
exactly that value. -/
theorem flow_export_threshold (K : List String) (A : List (String × String))
    (y : String → String × String → Option ℚ) (r : FlowRow) :
    r ∈ export_flows K A y ↔
      r.vehicle ∈ K ∧ (r.src, r.dst) ∈ A ∧
        1/1000000 < (y r.vehicle (r.src, r.dst)).getD 0 ∧
        r.flow = (y r.vehicle (r.src, r.dst)).getD 0 := by
  constructor
  · intro hr
    obtain ⟨k, hk, hr2⟩ := List.mem_flatMap.mp hr
    obtain ⟨a, ha, hra⟩ := List.mem_filterMap.mp hr2
    by_cases hv : (1:ℚ)/1000000 < (y k a).getD 0
    · rw [if_pos hv] at hra
      obtain rfl := Option.some.inj hra
      exact ⟨hk, by simpa using ha, hv, rfl⟩
    · rw [if_neg hv] at hra
      cases hra
  · rintro ⟨hk, ha, hv, hflow⟩
    apply List.mem_flatMap.mpr
    refine ⟨r.vehicle, hk, ?_⟩
    apply List.mem_filterMap.mpr
    refine ⟨(r.src, r.dst), ha, ?_⟩
    rw [if_pos hv, ← hflow]

/-! ## Arc-cost precomputation (`pipelines/preprocess.py`)

Float arithmetic is modelled exactly over `ℚ`.  The transcendental
primitives of Python's `math` module (sin, cos, sqrt, atan2, π) are opaque
to every claim about this pipeline, so they are passed as an explicit
parameter structure; all claims hold for every instantiation, and a concrete
instantiation keeps the embedding evaluable on explicit inputs. -/

structure TrigPrims where
  sinQ : ℚ → ℚ
  cosQ : ℚ → ℚ
  sqrtQ : ℚ → ℚ
  atan2Q : ℚ → ℚ → ℚ
  piQ : ℚ

/-- Embedding of `math.radians`. -/
def radiansQ (p : TrigPrims) (x : ℚ) : ℚ := x * p.piQ / 180

/-- The function `haversine_km` (preprocess.py lines 5–11). -/
def haversine_km (p : TrigPrims) (lat1 lon1 lat2 lon2 : ℚ) : ℚ :=
  let R : ℚ := 6371
  let dlat := radiansQ p (lat2 - lat1)
  let dlon := radiansQ p (lon2 - lon1)
  let a := p.sinQ (dlat / 2) ^ 2
    + p.cosQ (radiansQ p lat1) * p.cosQ (radiansQ p lat2) * p.sinQ (dlon / 2) ^ 2
  let c := 2 * p.atan2Q (p.sqrtQ a) (p.sqrtQ (1 - a))
  R * c

/-- Python's `round(x, 3)`: the stored arc fields keep 3 decimals. -/
def roundq3 (x : ℚ) : ℚ := (round (x * 1000) : ℤ) / 1000

/-- Travel time of `build_inputs_from_base` and `build_inputs_from_caso2`
(preprocess.py lines 121 and 281): `d / max(speed, 1e-6)` — the denominator
is clamped to `1e-6`. -/
def clamped_time (speed d : ℚ) : ℚ := d / max speed (1/1000000)

/-- Travel time of `build_inputs_from_caso3` (preprocess.py line 435):
`d / speed if speed > 0 else 0.0`. -/
def caso3_time (speed d : ℚ) : ℚ := if 0 < speed then d / speed else 0

/-- Fuel gallons of `build_inputs_from_caso3` (preprocess.py line 437):
`d / eff if eff > 0 else 0.0`. -/
def caso3_fuel_gal (eff d : ℚ) : ℚ := if 0 < eff then d / eff else 0

/-- A node row (`id`, `lat`, `lon`) of the concatenated centers+clients
table. -/
structure NodeRec where
  id : String
  lat : ℚ
  lon : ℚ
deriving DecidableEq

/-- The columns of the internal vehicles table read by the arc loops:
`id`, `speed_kph`, and the fuel efficiency (`fuel_eff_kmpl` in the base
case, `fuel_eff_kmgal` in cases 2/3). -/
structure VehRec where
  id : String
  speed_kph : ℚ
  fuel_eff : ℚ
deriving DecidableEq

/-- One row of `arcs_cache` as written by the base and caso2 pipelines. -/
structure ArcRow where
  vehicle : String
  src : String
  dst : String
  dist_km : ℚ
  time_h : ℚ
  cost : ℚ
  fuel_cost : ℚ
  dist_cost : ℚ
  time_cost : ℚ
deriving DecidableEq

/-- One row of `arcs_cache` as written by the caso3 pipeline (no cost
breakdown columns). -/
structure Caso3Row where
  vehicle : String
  src : String
  dst : String
  dist_km : ℚ
  time_h : ℚ
  cost : ℚ
deriving DecidableEq

/-- The arc computed by `build_inputs_from_base` for one vehicle and one
ordered node pair (preprocess.py lines 111–139): `alpha = 1.0`,
`d = haversine*alpha`, `t = d / max(speed, 1e-6)`,
`fuel_cost = (d / kmpl) * fuel_price`, `dist_cost = time_cost = 0`. -/
def base_arc_row (p : TrigPrims) (v : VehRec) (ni nj : NodeRec)
    (fuel_price : ℚ) : ArcRow :=
  let alpha : ℚ := 1
  let d := haversine_km p ni.lat ni.lon nj.lat nj.lon * alpha
  let t := clamped_time v.speed_kph d
  let fuel_cost := d / v.fuel_eff * fuel_price
  let dist_cost : ℚ := 0
  let time_cost : ℚ := 0
  let total := fuel_cost + dist_cost + time_cost
  { vehicle := v.id, src := ni.id, dst := nj.id,
    dist_km := roundq3 d, time_h := roundq3 t, cost := roundq3 total,
    fuel_cost := roundq3 fuel_cost, dist_cost := 0, time_cost := 0 }

/-- The arc loop of `build_inputs_from_base` (lines 111–141): every vehicle
paired with every ordered pair of distinct nodes. -/
def build_arcs_base (p : TrigPrims) (nodes : List NodeRec)
    (vehicles : List VehRec) (fuel_price : ℚ) : List ArcRow :=
  vehicles.flatMap fun v =>
    nodes.flatMap fun ni =>
      nodes.filterMap fun nj =>
        if ni.id = nj.id then none
        else some (base_arc_row p v ni nj fuel_price)

/-- The arc computed by `build_inputs_from_caso2` for one vehicle and one
ordered node pair (preprocess.py lines 271–299): as the base case, plus
`dist_cost = C_dist * d` and `time_cost = C_time * t`. -/
def caso2_arc_row (p : TrigPrims) (v : VehRec) (ni nj : NodeRec)
    (fuel_price C_dist C_time : ℚ) : ArcRow :=
  let alpha : ℚ := 1
  let d := haversine_km p ni.lat ni.lon nj.lat nj.lon * alpha
  let t := clamped_time v.speed_kph d
  let fuel_cost := d / v.fuel_eff * fuel_price
  let dist_cost := C_dist * d
  let time_cost := C_time * t
  let total := fuel_cost + dist_cost + time_cost
  { vehicle := v.id, src := ni.id, dst := nj.id,
    dist_km := roundq3 d, time_h := roundq3 t, cost := roundq3 total,
    fuel_cost := roundq3 fuel_cost, dist_cost := roundq3 dist_cost,
    time_cost := roundq3 time_cost }

/-- The arc loop of `build_inputs_from_caso2` (lines 271–299). -/
def build_arcs_caso2 (p : TrigPrims) (nodes : List NodeRec)
    (vehicles : List VehRec) (fuel_price C_dist C_time : ℚ) : List ArcRow :=
  vehicles.flatMap fun v =>
    nodes.flatMap fun ni =>
      nodes.filterMap fun nj =>
        if ni.id = nj.id then none
        else some (caso2_arc_row p v ni nj fuel_price C_dist C_time)

/-- The arc computed by `build_inputs_from_caso3` (preprocess.py lines
424–451): conditional time and fuel instead of clamping. -/
def caso3_arc_row (p : TrigPrims) (v : VehRec) (ni nj : NodeRec)
    (fuel_price C_dist C_time : ℚ) : Caso3Row :=
  let alpha : ℚ := 1
  let d := haversine_km p ni.lat ni.lon nj.lat nj.lon * alpha
  let t := caso3_time v.speed_kph d
  let fuel_gal := caso3_fuel_gal v.fuel_eff d
  let fuel_cost := fuel_gal * fuel_price
  let dist_cost := d * C_dist
  let time_cost := t * C_time
  let total := fuel_cost + dist_cost + time_cost
  { vehicle := v.id, src := ni.id, dst := nj.id,
    dist_km := roundq3 d, time_h := roundq3 t, cost := roundq3 total }

/-- The arc loop of `build_inputs_from_caso3` (lines 424–451). -/
def build_arcs_caso3 (p : TrigPrims) (nodes : List NodeRec)
    (vehicles : List VehRec) (fuel_price C_dist C_time : ℚ) : List Caso3Row :=
  vehicles.flatMap fun v =>
    nodes.flatMap fun ni =>
      nodes.filterMap fun nj =>
        if ni.id = nj.id then none
        else some (caso3_arc_row p v ni nj fuel_price C_dist C_time)

/-- A concrete instantiation of the transcendental primitives, used only to
evaluate the embedding on explicit inputs (every claim is proved for all
instantiations). -/
def testPrims : TrigPrims :=
  { sinQ := fun x => x, cosQ := fun _ => 0, sqrtQ := fun x => x,
    atan2Q := fun y _ => y, piQ := 180 }

/-- Rounding to 3 decimals is the identity on integers. -/
lemma roundq3_intCast (n : ℤ) : roundq3 (n : ℚ) = n := by
  unfold roundq3
  rw [show ((n : ℚ) * 1000) = ((n * 1000 : ℤ) : ℚ) by push_cast; ring,
    round_intCast]
  push_cast
  field_simp

/-! ## Claims C4, C6, C8 -/

def nodeEx1 : NodeRec := ⟨"N1", 0, 0⟩

def nodeEx2 : NodeRec := ⟨"N2", 2, 0⟩

def vehEx : VehRec := ⟨"V1", 25, 30⟩

def vehSpeed0 : VehRec := ⟨"V1", 0, 30⟩

/-- C4, counterexample.  A vehicle with speed `0` does not get travel
time `0` from the clamped computation of `build_inputs_from_base`: on the
concrete two-node instance the precomputed row carries
`time_h = 12742000000` (the distance divided by the epsilon `1e-6`). -/
theorem speed_zero_time_counterexample :
    vehSpeed0.speed_kph ≤ 0 ∧
      base_arc_row testPrims vehSpeed0 nodeEx1 nodeEx2 16300
        ∈ build_arcs_base testPrims [nodeEx1, nodeEx2] [vehSpeed0] 16300 ∧
      (base_arc_row testPrims vehSpeed0 nodeEx1 nodeEx2 16300).time_h
        = 12742000000 ∧
      (12742000000 : ℚ) ≠ 0 := by
  refine ⟨by norm_num [vehSpeed0], ?_, ?_, by norm_num⟩
  · apply List.mem_flatMap.mpr
    refine ⟨vehSpeed0, by simp, ?_⟩
    apply List.mem_flatMap.mpr
    refine ⟨nodeEx1, by simp, ?_⟩
    apply List.mem_filterMap.mpr
    refine ⟨nodeEx2, by simp, ?_⟩
    rw [if_neg (by decide : ¬ nodeEx1.id = nodeEx2.id)]
  · have h1 : haversine_km testPrims nodeEx1.lat nodeEx1.lon nodeEx2.lat
        nodeEx2.lon * 1 = 12742 := by
      simp only [haversine_km, radiansQ, testPrims, nodeEx1, nodeEx2]
      norm_num
    have h2 : clamped_time vehSpeed0.speed_kph 12742 = 12742000000 := by
      simp only [vehSpeed0]
      unfold clamped_time
      rw [max_eq_right (by norm_num : (0:ℚ) ≤ 1/1000000)]
      norm_num
    have h3 : roundq3 12742000000 = 12742000000 := by
      have h := roundq3_intCast 12742000000
      norm_num at h
      exact h
    simp only [base_arc_row]
    rw [h1, h2, h3]

/-- C4, amended.  If a vehicle's speed is ≤ 0 the two code paths
diverge: the base/caso2 computation clamps the denominator to `1e-6` and
yields `time = distance * 10^6` (finite, never failing, but not 0), while
the caso3 computation takes the explicit conditional branch and yields
`time = 0` (without clamping). -/
theorem nonpositive_speed_time_behaviour (d speed : ℚ) (h : speed ≤ 0) :
    clamped_time speed d = d * 1000000 ∧ caso3_time speed d = 0 := by
  constructor
  · unfold clamped_time
    rw [max_eq_right (h.trans (by norm_num))]
    rw [div_eq_mul_inv, one_div, inv_inv]
  · unfold caso3_time
    rw [if_neg (not_lt.mpr h)]

/-- Witness for C4's amended theorem at speed `0`, distance `7`. -/
theorem nonpositive_speed_time_behaviour_witness :
    clamped_time 0 7 = 7 * 1000000 ∧ caso3_time 0 7 = 0 :=
  nonpositive_speed_time_behaviour 7 0 (le_refl 0)

/-- Explicit bound used to discharge the speed hypothesis on the caso2
fleet (all caso2 vehicles have `speed_kph = 25`). -/
lemma one_div_million_le_25 : (1:ℚ)/1000000 ≤ 25 := by norm_num

/-- C6.  For every vehicle and ordered pair of distinct nodes, the
precomputed caso2 arc triple satisfies the spec's formulas (stored rounded
to 3 decimals): distance is the haversine distance times the detour factor
`alpha = 1`, time is distance divided by the vehicle speed (the `1e-6`
clamp is inactive for any speed ≥ `1e-6`), and cost is
`fuel_cost + dist_cost + time_cost` with
`fuel_cost = (distance / fuel_efficiency) * fuel_price`; the row is part of
the built arc cache. -/
theorem caso2_arc_triple_formulas (p : TrigPrims) (nodes : List NodeRec)
    (vehicles : List VehRec) (fuel_price C_dist C_time : ℚ) (v : VehRec)
    (ni nj : NodeRec) (hv : v ∈ vehicles) (hni : ni ∈ nodes)
    (hnj : nj ∈ nodes) (hne : ni.id ≠ nj.id)
    (hspeed : 1/1000000 ≤ v.speed_kph) :
    (caso2_arc_row p v ni nj fuel_price C_dist C_time).dist_km
        = roundq3 (haversine_km p ni.lat ni.lon nj.lat nj.lon * 1) ∧
      (caso2_arc_row p v ni nj fuel_price C_dist C_time).time_h
        = roundq3
            (haversine_km p ni.lat ni.lon nj.lat nj.lon * 1 / v.speed_kph) ∧
      (caso2_arc_row p v ni nj fuel_price C_dist C_time).cost
        = roundq3
            (haversine_km p ni.lat ni.lon nj.lat nj.lon * 1 / v.fuel_eff
                * fuel_price
              + C_dist * (haversine_km p ni.lat ni.lon nj.lat nj.lon * 1)
              + C_time
                * (haversine_km p ni.lat ni.lon nj.lat nj.lon * 1
                    / v.speed_kph)) ∧
      caso2_arc_row p v ni nj fuel_price C_dist C_time
        ∈ build_arcs_caso2 p nodes vehicles fuel_price C_dist C_time := by
  have hcl : clamped_time v.speed_kph
      (haversine_km p ni.lat ni.lon nj.lat nj.lon * 1)
      = haversine_km p ni.lat ni.lon nj.lat nj.lon * 1 / v.speed_kph := by
    unfold clamped_time
    rw [max_eq_left hspeed]
  refine ⟨?_, ?_, ?_, ?_⟩
  · simp only [caso2_arc_row]
  · simp only [caso2_arc_row]
    rw [hcl]
  · simp only [caso2_arc_row]
    rw [hcl]
  · apply List.mem_flatMap.mpr
    refine ⟨v, hv, ?_⟩
    apply List.mem_flatMap.mpr
    refine ⟨ni, hni, ?_⟩
    apply List.mem_filterMap.mpr
    refine ⟨nj, hnj, ?_⟩
    rw [if_neg hne]

/-- Witness for C6 on a concrete two-node, one-vehicle caso2 instance. -/
theorem caso2_arc_triple_formulas_witness :
    (caso2_arc_row testPrims vehEx nodeEx1 nodeEx2 16300 2500 7600).dist_km
        = roundq3 (haversine_km testPrims nodeEx1.lat nodeEx1.lon nodeEx2.lat
            nodeEx2.lon * 1) ∧
      (caso2_arc_row testPrims vehEx nodeEx1 nodeEx2 16300 2500 7600).time_h
        = roundq3 (haversine_km testPrims nodeEx1.lat nodeEx1.lon nodeEx2.lat
            nodeEx2.lon * 1 / vehEx.speed_kph) ∧
      (caso2_arc_row testPrims vehEx nodeEx1 nodeEx2 16300 2500 7600).cost
        = roundq3 (haversine_km testPrims nodeEx1.lat nodeEx1.lon nodeEx2.lat
              nodeEx2.lon * 1 / vehEx.fuel_eff * 16300
            + 2500 * (haversine_km testPrims nodeEx1.lat nodeEx1.lon
                nodeEx2.lat nodeEx2.lon * 1)
            + 7600 * (haversine_km testPrims nodeEx1.lat nodeEx1.lon
                nodeEx2.lat nodeEx2.lon * 1 / vehEx.speed_kph)) ∧
      caso2_arc_row testPrims vehEx nodeEx1 nodeEx2 16300 2500 7600
        ∈ build_arcs_caso2 testPrims [nodeEx1, nodeEx2] [vehEx] 16300 2500
            7600 :=
  caso2_arc_triple_formulas testPrims [nodeEx1, nodeEx2] [vehEx] 16300 2500
    7600 vehEx nodeEx1 nodeEx2 (by simp) (by simp) (by simp) (by decide)
    one_div_million_le_25

/-- C8.  The arc-cost precomputation is a pure function of the node
coordinates and the static vehicle parameters: on equal inputs it produces
equal `dist_km`/`time_h`/`cost` values for every row — there is no hidden
state or randomness in the embedding of `build_inputs_from_base`. -/
theorem arc_cache_deterministic (p : TrigPrims) (nodes₁ nodes₂ : List NodeRec)
    (vehicles₁ vehicles₂ : List VehRec) (fuel_price₁ fuel_price₂ : ℚ)
    (hn : nodes₁ = nodes₂) (hv : vehicles₁ = vehicles₂)
    (hf : fuel_price₁ = fuel_price₂) :
    build_arcs_base p nodes₁ vehicles₁ fuel_price₁
      = build_arcs_base p nodes₂ vehicles₂ fuel_price₂ := by
  rw [hn, hv, hf]

/-- Witness for C8: recomputing the base arc cache on the identical concrete
inputs yields the identical table. -/
theorem arc_cache_deterministic_witness :
    build_arcs_base testPrims [nodeEx1, nodeEx2] [vehEx] 16300
      = build_arcs_base testPrims [nodeEx1, nodeEx2] [vehEx] 16300 :=
  arc_cache_deterministic testPrims [nodeEx1, nodeEx2] [nodeEx1, nodeEx2]
    [vehEx] [vehEx] 16300 16300 rfl rfl rfl

/-! ## Parameter initializers of `build_model` (build_model.py, lines 191–209)

`build_model` zips the arc-cache rows into dicts keyed by
`(vehicle, from, to)` (later duplicates overwrite, Python `dict(zip(...))`
semantics) and initializes the Pyomo parameters with `.get(key, sentinel)`
defaults `1e9` (cost) and `1e6` (time, dist). -/

/-- One row of `arcs_cache.csv` as read by `build_model` (after the
`veh`/`i`/`j` column normalization). -/
structure CacheRow where
  vehicle : String
  src : String
  dst : String
  dist_km : ℚ
  time_h : ℚ
  cost : ℚ
deriving DecidableEq

/-- Embedding of `cost_map = dict(zip(arcs_cache["key"], arcs_cache["cost"]))`. -/
def cost_map (cache : List CacheRow) : List ((String × String × String) × ℚ) :=
  dictOfList (cache.map (fun r => ((r.vehicle, r.src, r.dst), r.cost)))

/-- Embedding of `time_map = dict(zip(arcs_cache["key"], arcs_cache["time_h"]))`. -/
def time_map (cache : List CacheRow) : List ((String × String × String) × ℚ) :=
  dictOfList (cache.map (fun r => ((r.vehicle, r.src, r.dst), r.time_h)))

/-- Embedding of `dist_map = dict(zip(arcs_cache["key"], arcs_cache["dist_km"]))`. -/
def dist_map (cache : List CacheRow) : List ((String × String × String) × ℚ) :=
  dictOfList (cache.map (fun r => ((r.vehicle, r.src, r.dst), r.dist_km)))

/-- The initializer `cost_init` (build_model.py lines 198–199):
`cost_map.get((k, i, j), 1e9)`. -/
def cost_init (cache : List CacheRow) (k i j : String) : ℚ :=
  (alookup (k, i, j) (cost_map cache)).getD 1000000000

/-- The initializer `time_init` (build_model.py lines 201–202):
`time_map.get((k, i, j), 1e6)`. -/
def time_init (cache : List CacheRow) (k i j : String) : ℚ :=
  (alookup (k, i, j) (time_map cache)).getD 1000000

/-- The initializer `dist_init` (build_model.py lines 204–205):
`dist_map.get((k, i, j), 1e6)`. -/
def dist_init (cache : List CacheRow) (k i j : String) : ℚ :=
  (alookup (k, i, j) (dist_map cache)).getD 1000000

/-- Overwriting some other key leaves a lookup unchanged. -/
lemma alookup_map_overwrite {α β : Type} [DecidableEq α] (k k' : α) (v : β)
    (m : List (α × β)) (hne : k' ≠ k) :
    alookup k (m.map (fun p => if p.1 = k' then (k', v) else p))
      = alookup k m := by
  induction m with
  | nil => rfl
  | cons p rest ih =>
    rw [List.map_cons]
    by_cases hp : p.1 = k'
    · rw [if_pos hp]
      show (if k' = k then some v
          else alookup k (rest.map (fun q => if q.1 = k' then (k', v) else q)))
        = if p.1 = k then some p.2 else alookup k rest
      rw [if_neg hne, ih, if_neg (fun hk => hne (hp ▸ hk))]
    · rw [if_neg hp]
      show (if p.1 = k then some p.2
          else alookup k (rest.map (fun q => if q.1 = k' then (k', v) else q)))
        = if p.1 = k then some p.2 else alookup k rest
      rw [ih]

/-- Appending a pair with some other key leaves a lookup unchanged. -/
lemma alookup_append_single_ne {α β : Type} [DecidableEq α]
    (m : List (α × β)) (k k' : α) (v : β) (hne : k' ≠ k) :
    alookup k (m ++ [(k', v)]) = alookup k m := by
  induction m with
  | nil => simp [alookup, hne]
  | cons p rest ih =>
    show (if p.1 = k then some p.2 else alookup k (rest ++ [(k', v)]))
      = if p.1 = k then some p.2 else alookup k rest
    rw [ih]

/-- A dict assignment under some other key leaves a lookup unchanged. -/
lemma alookup_dictInsert_ne {α β : Type} [DecidableEq α]
    (m : List (α × β)) (k k' : α) (v : β) (hne : k' ≠ k) :
    alookup k (dictInsert m k' v) = alookup k m := by
  unfold dictInsert
  by_cases hmem : k' ∈ m.map Prod.fst
  · rw [if_pos hmem]
    exact alookup_map_overwrite k k' v m hne
  · rw [if_neg hmem]
    exact alookup_append_single_ne m k k' v hne

/-- Folding dict assignments whose keys all differ from `k` leaves a lookup
unchanged. -/
lemma alookup_foldl_dictInsert {α β : Type} [DecidableEq α]
    (l : List (α × β)) (k : α) (h : ¬ k ∈ l.map Prod.fst) :
    ∀ m, alookup k (l.foldl (fun m p => dictInsert m p.1 p.2) m)
      = alookup k m := by
  induction l with
  | nil => intro m; rfl
  | cons p rest ih =>
    intro m
    simp only [List.map_cons, List.mem_cons] at h
    push_neg at h
    simp only [List.foldl_cons]
    rw [ih h.2 (dictInsert m p.1 p.2),
      alookup_dictInsert_ne m k p.1 p.2 (Ne.symm h.1)]

/-- A key absent from the assignment list is absent from the built dict. -/
lemma alookup_dictOfList_eq_none {α β : Type} [DecidableEq α]
    (l : List (α × β)) (k : α) (h : ¬ k ∈ l.map Prod.fst) :
    alookup k (dictOfList l) = none := by
  unfold dictOfList
  rw [alookup_foldl_dictInsert l k h []]
  rfl

/-- C9.  `build_model` is total over an incomplete arc-cost cache: a
`(vehicle, origin, destination)` triple with no cache row gets the sentinel
parameter values `cost = 1e9`, `time = 1e6` and `dist = 1e6` instead of a
failure. -/
theorem missing_arc_sentinels (cache : List CacheRow) (k i j : String)
    (h : ¬ (k, i, j) ∈ cache.map (fun r => (r.vehicle, r.src, r.dst))) :
    cost_init cache k i j = 1000000000 ∧
      time_init cache k i j = 1000000 ∧
      dist_init cache k i j = 1000000 := by
  have hkeys : ∀ (f : CacheRow → ℚ),
      ¬ (k, i, j) ∈ (cache.map
        (fun r => ((r.vehicle, r.src, r.dst), f r))).map Prod.fst := by
    intro f hmem
    apply h
    rw [List.map_map] at hmem
    exact hmem
  refine ⟨?_, ?_, ?_⟩
  · unfold cost_init cost_map
    rw [alookup_dictOfList_eq_none _ _ (hkeys CacheRow.cost)]
    rfl
  · unfold time_init time_map
    rw [alookup_dictOfList_eq_none _ _ (hkeys CacheRow.time_h)]
    rfl
  · unfold dist_init dist_map
    rw [alookup_dictOfList_eq_none _ _ (hkeys CacheRow.dist_km)]
    rfl

/-- Witness for C9: a one-row cache for vehicle `V2` answers the query for
the absent vehicle `V1` with the sentinels. -/
theorem missing_arc_sentinels_witness :
    cost_init [⟨"V2", "A", "B", 1, 2, 3⟩] "V1" "A" "B" = 1000000000 ∧
      time_init [⟨"V2", "A", "B", 1, 2, 3⟩] "V1" "A" "B" = 1000000 ∧
      dist_init [⟨"V2", "A", "B", 1, 2, 3⟩] "V1" "A" "B" = 1000000 :=
  missing_arc_sentinels [⟨"V2", "A", "B", 1, 2, 3⟩] "V1" "A" "B" (by decide)

end ProyectoA
